import Mathlib

/-!
Shallow embedding of the `blogging` application (a Python desktop
blogging-management tool) and verification of its specification claims.

The embedding mirrors the source modules:

* `src/blogging/controller.py` — the `Controller` session / authorization
  state machine;
* `src/blogging/blog.py` — the `Blog` class (id/name/url/email plus a
  per-blog post DAO);
* `src/blogging/dao/blog_dao_json.py` — `BlogDAOJSON`, a Python dict keyed
  by blog id, persisted as a JSON array;
* `src/blogging/dao/post_dao_pickle.py` — `PostDAOPickle`, a Python list
  of posts plus a code counter, persisted via pickle.

Python dicts (insertion-ordered, unique keys) are modelled as association
lists; Python exceptions are modelled by an error type returned alongside
the (possibly mutated) state, since a Python operation can both mutate
state and then raise.  Machine-level file contents are abstracted to the
parsed values together with an explicit "missing file" / "malformed file"
alternative where the load/save claims need them.
-/

namespace Blogging

/-! ### Python dict model: insertion-ordered association lists -/

/-- Model of `dict.get(k)`: the value of the unique entry whose key
matches, scanning in insertion order. -/
def dget {κ α : Type} [DecidableEq κ] : List (κ × α) → κ → Option α
  | [], _ => none
  | (k', v) :: rest, k => if k' = k then some v else dget rest k

/-- Model of `d[k] = v`: replace the value in place when the key is
present (keeping its position, as Python dicts do), else append. -/
def dset {κ α : Type} [DecidableEq κ] : List (κ × α) → κ → α → List (κ × α)
  | [], k, v => [(k, v)]
  | (k', v') :: rest, k, v =>
    if k' = k then (k', v) :: rest else (k', v') :: dset rest k v

/-- Model of `del d[k]`: remove the entry with the matching key. -/
def ddel {κ α : Type} [DecidableEq κ] : List (κ × α) → κ → List (κ × α)
  | [], _ => []
  | (k', v') :: rest, k => if k' = k then rest else (k', v') :: ddel rest k

/-- Model of `d.values()` (in insertion order). -/
def dvalues {κ α : Type} (m : List (κ × α)) : List α := m.map (·.2)

/-- Replace the value at key `k` when present; leave the dict unchanged
when `k` is absent.  This models mutation of an object that the dict entry
at `k` aliases: the mutation shows up in the dict exactly when the object
is stored there. -/
def dreplace {κ α : Type} [DecidableEq κ] : List (κ × α) → κ → α → List (κ × α)
  | [], _, _ => []
  | (k', v') :: rest, k, v =>
    if k' = k then (k', v) :: dreplace rest k v else (k', v') :: dreplace rest k v

/-- Model of Python `str.split(sep)` for a one-character separator, over
the character list: split at every occurrence of the separator. -/
def splitOnChar (sep : Char) : List Char → List (List Char)
  | [] => [[]]
  | c :: rest =>
    let r := splitOnChar sep rest
    if c = sep then [] :: r
    else
      match r with
      | [] => [[c]]
      | g :: gs => (c :: g) :: gs

/-- Model of `line.split(',')`. -/
def pySplitComma (s : String) : List String :=
  (splitOnChar ',' s.data).map String.mk

/-- Model of Python `str.strip()`: drop whitespace from both ends. -/
def pyStrip (s : String) : String :=
  String.mk (((s.data.dropWhile Char.isWhitespace).reverse.dropWhile
    Char.isWhitespace).reverse)

/-- Contiguous-sublist test on character lists. -/
def containsSub (needle : List Char) : List Char → Bool
  | [] => needle.isEmpty
  | c :: rest => needle.isPrefixOf (c :: rest) || containsSub needle rest

/-- Model of the Python substring test `needle in hay`. -/
def pyIn (needle hay : String) : Bool :=
  containsSub needle.data hay.data

/-! ### SHA-256 (`hashlib.sha256(...).hexdigest()`)

A direct executable implementation over `Nat` with explicit reduction
modulo `2 ^ 32`, used by `Controller.login` exactly where the source calls
`hashlib`. -/

/-- Truncate to a 32-bit word. -/
def w32 (x : Nat) : Nat := x % 4294967296

/-- Right rotation of a 32-bit word. -/
def rotr32 (n x : Nat) : Nat := w32 ((x >>> n) ||| (x <<< (32 - n)))

def bigSigma0 (x : Nat) : Nat := rotr32 2 x ^^^ rotr32 13 x ^^^ rotr32 22 x

def bigSigma1 (x : Nat) : Nat := rotr32 6 x ^^^ rotr32 11 x ^^^ rotr32 25 x

def smallSigma0 (x : Nat) : Nat := rotr32 7 x ^^^ rotr32 18 x ^^^ (x >>> 3)

def smallSigma1 (x : Nat) : Nat := rotr32 17 x ^^^ rotr32 19 x ^^^ (x >>> 10)

def chFn (x y z : Nat) : Nat := (x &&& y) ^^^ ((x ^^^ 4294967295) &&& z)

def majFn (x y z : Nat) : Nat := (x &&& y) ^^^ (x &&& z) ^^^ (y &&& z)

/-- The 64 SHA-256 round constants (the fractional parts of the cube
roots of the first 64 primes), in decimal. -/
def K256 : List Nat :=
  [1116352408, 1899447441, 3049323471, 3921009573, 961987163, 1508970993,
   2453635748, 2870763221, 3624381080, 310598401, 607225278, 1426881987,
   1925078388, 2162078206, 2614888103, 3248222580, 3835390401, 4022224774,
   264347078, 604807628, 770255983, 1249150122, 1555081692, 1996064986,
   2554220882, 2821834349, 2952996808, 3210313671, 3336571891, 3584528711,
   113926993, 338241895, 666307205, 773529912, 1294757372, 1396182291,
   1695183700, 1986661051, 2177026350, 2456956037, 2730485921, 2820302411,
   3259730800, 3345764771, 3516065817, 3600352804, 4094571909, 275423344,
   430227734, 506948616, 659060556, 883997877, 958139571, 1322822218,
   1537002063, 1747873779, 1955562222, 2024104815, 2227730452, 2361852424,
   2428436474, 2756734187, 3204031479, 3329325298]

/-- The SHA-256 initial hash value (the fractional parts of the square
roots of the first 8 primes), in decimal. -/
def H256 : List Nat :=
  [1779033703, 3144134277, 1013904242, 2773480762,
   1359893119, 2600822924, 528734635, 1541459225]

/-- Big-endian byte representation of `v` on `n` bytes. -/
def bytesBE : Nat → Nat → List Nat
  | 0, _ => []
  | n + 1, v => bytesBE n (v / 256) ++ [v % 256]

/-- SHA-256 padding: append `0x80`, zero bytes up to 56 mod 64, then the
bit length on 8 big-endian bytes. -/
def sha256Pad (msg : List Nat) : List Nat :=
  msg ++ [0x80] ++ List.replicate ((119 - msg.length % 64) % 64) 0 ++ bytesBE 8 (msg.length * 8)

/-- Split a byte list into 64-byte blocks. -/
def toBlocks (l : List Nat) : List (List Nat) :=
  if l = [] then [] else l.take 64 :: toBlocks (l.drop 64)
termination_by l.length
decreasing_by
  simp only [List.length_drop]
  cases l with
  | nil => simp_all
  | cons a as => simp only [List.length_cons]; omega

/-- Combine bytes into big-endian 32-bit words. -/
def toWords : List Nat → List Nat
  | b0 :: b1 :: b2 :: b3 :: rest =>
    (((b0 * 256 + b1) * 256 + b2) * 256 + b3) :: toWords rest
  | _ => []

/-- Extend the 16 block words by `n` further message-schedule words. -/
def extendSchedule : Nat → List Nat → List Nat
  | 0, ws => ws
  | n + 1, ws =>
    let i := ws.length
    extendSchedule n (ws ++ [w32 (smallSigma1 (ws.getD (i - 2) 0) + ws.getD (i - 7) 0 +
      smallSigma0 (ws.getD (i - 15) 0) + ws.getD (i - 16) 0)])

/-- One SHA-256 round on the 8-word working state. -/
def roundStep (st8 : List Nat) (kw : Nat × Nat) : List Nat :=
  match st8 with
  | [a, b, c, d, e, f, g, h] =>
    let t1 := w32 (h + bigSigma1 e + chFn e f g + kw.1 + kw.2)
    let t2 := w32 (bigSigma0 a + majFn a b c)
    [w32 (t1 + t2), a, b, c, w32 (d + t1), e, f, g]
  | other => other

/-- Compress one 64-byte block into the running hash. -/
def compress (hs : List Nat) (block : List Nat) : List Nat :=
  let ws := extendSchedule 48 (toWords block)
  let fin := (K256.zip ws).foldl roundStep hs
  (hs.zip fin).map (fun p => w32 (p.1 + p.2))

/-- SHA-256 of a byte string, as the list of 8 hash words. -/
def sha256Words (msg : List Nat) : List Nat :=
  (toBlocks (sha256Pad msg)).foldl compress H256

/-- Lower-case hex digit. -/
def hexDigit (n : Nat) : Char :=
  if n < 10 then Char.ofNat (48 + n) else Char.ofNat (87 + n)

/-- Lower-case hex rendering of a 32-bit word on 8 digits. -/
def hexWord (w : Nat) : String :=
  String.mk ((List.range 8).map (fun i => hexDigit ((w >>> (28 - 4 * i)) % 16)))

/-- The UTF-8 bytes of a string, as `Nat`s. -/
def strBytes (s : String) : List Nat := s.toUTF8.toList.map (fun b => b.toNat)

/-- Model of `hashlib.sha256(password.encode()).hexdigest()`. -/
def sha256Hex (s : String) : String :=
  String.join ((sha256Words (strBytes s)).map hexWord)

/-! ### Posts (`src/blogging/post.py`, reconstructed)

Modelled from the spec: the `Post` class itself is not under `src/`; its
behaviour is fixed by the spec ("posts (title/text/timestamps)") and by
`src/tests/post_test.py`: a post carries a code, a title, a text and two
timestamps; the constructor stamps both times with the current time, and
`update` replaces title and text and refreshes only the update time.
Timestamps are abstracted to `Nat` and the ambient current time is passed
in explicitly as `now`. -/

structure Post where
  code : Nat
  title : String
  text : String
  creation_time : Nat
  update_time : Nat
deriving Repr, DecidableEq

/-- Modelled from the spec: `Post.update(new_title, new_text)` sets the
title and text and refreshes the update time (per
`src/tests/post_test.py::test_update_method`); the code and creation time
are untouched. -/
def Post.update (p : Post) (new_title new_text : String) (now : Nat) : Post :=
  { p with title := new_title, text := new_text, update_time := now }

/-- The `Post(code, title, text)` constructor call (both timestamps are
stamped with the current time). -/
def mkPost (code : Nat) (title text : String) (now : Nat) : Post :=
  { code := code, title := title, text := text, creation_time := now, update_time := now }

/-! ### PostDAOPickle (`src/blogging/dao/post_dao_pickle.py`)

The in-memory state is the `posts` list plus the `counter`.  File
persistence (`save_posts` / `load_posts`) is modelled separately below for
the load/save claims; the CRUD operations here are the in-memory effects.
A Python method that mutates `self` becomes a function returning the
result paired with the new state. -/

structure PostDAOPickle where
  posts : List Post
  counter : Nat
deriving Repr, DecidableEq

/-- The linear scan of `PostDAOPickle.search_post`: first post whose code
matches, else `None`. -/
def findPost : List Post → Nat → Option Post
  | [], _ => none
  | p :: rest, c => if p.code == c then some p else findPost rest c

def PostDAOPickle.search_post (dao : PostDAOPickle) (post_code : Nat) : Option Post :=
  findPost dao.posts post_code

/-- `create_post`: append the post, raise the counter to cover its code,
return `True`. -/
def PostDAOPickle.create_post (dao : PostDAOPickle) (post : Post) : Bool × PostDAOPickle :=
  (true, { dao with posts := dao.posts ++ [post], counter := Nat.max dao.counter post.code })

/-- `retrieve_posts`: all posts whose title or text contains the term. -/
def PostDAOPickle.retrieve_posts (dao : PostDAOPickle) (search_term : String) : List Post :=
  dao.posts.filter (fun p => pyIn search_term p.title || pyIn search_term p.text)

/-- In-place mutation of the first post whose code matches, as performed
by `update_post` through the object returned by `search_post`. -/
def updateFirstPost : List Post → Nat → String → String → Nat → List Post
  | [], _, _, _, _ => []
  | p :: rest, c, t, x, now =>
    if p.code == c then p.update t x now :: rest
    else p :: updateFirstPost rest c t x now

def PostDAOPickle.update_post (dao : PostDAOPickle) (post_code : Nat)
    (new_post_title new_post_text : String) (now : Nat) : Bool × PostDAOPickle :=
  match findPost dao.posts post_code with
  | none => (false, dao)
  | some _ => (true, { dao with posts := updateFirstPost dao.posts post_code new_post_title new_post_text now })

/-- Deletion of the first post whose code matches (`del self.posts[i]`). -/
def deleteFirstPost : List Post → Nat → List Post
  | [], _ => []
  | p :: rest, c => if p.code == c then rest else p :: deleteFirstPost rest c

def PostDAOPickle.delete_post (dao : PostDAOPickle) (post_code : Nat) : Bool × PostDAOPickle :=
  if (findPost dao.posts post_code).isSome then
    (true, { dao with posts := deleteFirstPost dao.posts post_code })
  else (false, dao)

/-- `list_posts`: the posts list reversed (most recently added first). -/
def PostDAOPickle.list_posts (dao : PostDAOPickle) : List Post :=
  dao.posts.reverse

/-! ### Blog (`src/blogging/blog.py`) -/

structure Blog where
  id : Nat
  name : String
  url : String
  email : String
  post_dao : PostDAOPickle
deriving Repr, DecidableEq

/-- `Blog.__eq__`: equality on id, name, url and email only. -/
def blogEq (a b : Blog) : Bool :=
  a.id == b.id && a.name == b.name && a.url == b.url && a.email == b.email

def Blog.search_post (b : Blog) (post_code : Nat) : Option Post :=
  b.post_dao.search_post post_code

/-- `Blog.create_post`: new code is `counter + 1`; the post is handed to
the DAO and returned on success, `None` otherwise. -/
def Blog.create_post (b : Blog) (post_title post_text : String) (now : Nat) :
    Option Post × Blog :=
  let new_post_code := b.post_dao.counter + 1
  let new_post : Post :=
    { code := new_post_code, title := post_title, text := post_text,
      creation_time := now, update_time := now }
  let r := b.post_dao.create_post new_post
  if r.1 then (some new_post, { b with post_dao := r.2 })
  else (none, { b with post_dao := r.2 })

def Blog.retrieve_posts (b : Blog) (search_term : String) : List Post :=
  b.post_dao.retrieve_posts search_term

/-- `Blog.update_post`: `False` when the post is absent, else delegate. -/
def Blog.update_post (b : Blog) (post_code : Nat) (new_post_title new_post_text : String)
    (now : Nat) : Bool × Blog :=
  if (b.search_post post_code).isNone then (false, b)
  else
    let r := b.post_dao.update_post post_code new_post_title new_post_text now
    (r.1, { b with post_dao := r.2 })

/-- `Blog.delete_post`: `False` when the post is absent, else delegate. -/
def Blog.delete_post (b : Blog) (post_code : Nat) : Bool × Blog :=
  if (b.search_post post_code).isNone then (false, b)
  else
    let r := b.post_dao.delete_post post_code
    (r.1, { b with post_dao := r.2 })

def Blog.list_posts (b : Blog) : List Post :=
  b.post_dao.list_posts

/-! ### BlogDAOJSON (`src/blogging/dao/blog_dao_json.py`)

The in-memory state is the dict `self.blogs` mapping blog id to `Blog`;
file persistence is modelled separately below. -/

/-- The dict `BlogDAOJSON.blogs`. -/
abbrev Blogs := List (Nat × Blog)

namespace BlogDAOJSON

/-- `search_blog`: `self.blogs.get(blog_id)`. -/
def search_blog (blogs : Blogs) (blog_id : Nat) : Option Blog :=
  dget blogs blog_id

/-- `create_blog`: `False` if the id exists, else insert and `True`. -/
def create_blog (blogs : Blogs) (blog : Blog) : Bool × Blogs :=
  if (dget blogs blog.id).isSome then (false, blogs)
  else (true, dset blogs blog.id blog)

/-- `retrieve_blogs`: blogs whose name contains the term. -/
def retrieve_blogs (blogs : Blogs) (search_term : String) : List Blog :=
  (dvalues blogs).filter (fun b => pyIn search_term b.name)

/-- `update_blog`: `False` if the id is absent, else overwrite. -/
def update_blog (blogs : Blogs) (blog_id : Nat) (blog : Blog) : Bool × Blogs :=
  if (dget blogs blog_id).isNone then (false, blogs)
  else (true, dset blogs blog_id blog)

/-- `delete_blog`: `False` if the id is absent, else remove. -/
def delete_blog (blogs : Blogs) (blog_id : Nat) : Bool × Blogs :=
  if (dget blogs blog_id).isNone then (false, blogs)
  else (true, ddel blogs blog_id)

/-- `list_blogs`: all blogs, in insertion order. -/
def list_blogs (blogs : Blogs) : List Blog :=
  dvalues blogs

end BlogDAOJSON

/-- The identity-relevant fields of a blog (everything but its post
store). -/
def blogFields (b : Blog) : Nat × String × String × String :=
  (b.id, b.name, b.url, b.email)

/-- The post list stored under key `k` of the blog dict, when present. -/
def postsAt (m : Blogs) (k : Nat) : Option (List Post) :=
  (dget m k).map (fun b => b.post_dao.posts)

/-- The id/name/url/email fields stored under key `k` of the blog dict,
when present. -/
def fieldsAt (m : Blogs) (k : Nat) : Option (Nat × String × String × String) :=
  (dget m k).map blogFields

/-! ### Exceptions (`src/blogging/exception/`)

The exception classes are trivial subclasses of `Exception`; they are
modelled as an enumeration.  `valueError` stands for Python's built-in
`ValueError` (raised by tuple unpacking in `load_users`). -/

inductive PyExn where
  | invalidLogin
  | duplicateLogin
  | invalidLogout
  | illegalAccess
  | illegalOperation
  | noCurrentBlog
  | valueError
deriving Repr, DecidableEq

/-! ### Controller (`src/blogging/controller.py`)

A Python method that may raise becomes a function returning
`Except PyExn α × Controller`: the `Except` carries the normal result or
the exception, and the `Controller` is the state after the call — returned
even on the error path, because a Python method can mutate state and then
raise (as `update_blog` does). -/

structure Controller where
  users : List (String × String)
  username : Option String
  password_hash : Option String
  logged : Bool
  blog_dao : Blogs
  current_blog : Option Blog
deriving Repr, DecidableEq

namespace Controller

/-- Aliasing model for post operations: `self.current_blog` is, in every
state reachable through the Controller API, the very object stored in the
blog dict under its id, so mutating it updates both `current_blog` and the
dict entry with that id (and only that entry). -/
def putCurrent (st : Controller) (cb : Blog) : Controller :=
  { st with current_blog := some cb, blog_dao := dreplace st.blog_dao cb.id cb }

/-- `Controller.login`: reject a duplicate login, then an unknown
username, then a password whose SHA-256 hex digest differs from the stored
hash; otherwise record the session and return `True`. -/
def login (st : Controller) (username password : String) : Except PyExn Bool × Controller :=
  if st.logged then (.error .duplicateLogin, st)
  else
    match dget st.users username with
    | none => (.error .invalidLogin, st)
    | some stored =>
      let pw_hash := sha256Hex password
      if pw_hash != stored then (.error .invalidLogin, st)
      else (.ok true,
        { st with username := some username, password_hash := some pw_hash, logged := true })

/-- `Controller.logout`: clear the session and the current blog. -/
def logout (st : Controller) : Except PyExn Bool × Controller :=
  if !st.logged then (.error .invalidLogout, st)
  else (.ok true,
    { st with username := none, password_hash := none, logged := false, current_blog := none })

def search_blog (st : Controller) (blog_id : Nat) : Except PyExn (Option Blog) × Controller :=
  if !st.logged then (.error .illegalAccess, st)
  else (.ok (BlogDAOJSON.search_blog st.blog_dao blog_id), st)

/-- `Controller.create_blog`: build the `Blog` (its `PostDAOPickle` starts
from the empty in-memory store; file effects are modelled separately) and
insert it, raising `IllegalOperationException` when the id is taken. -/
def create_blog (st : Controller) (blog_id : Nat) (blog_name blog_url blog_email : String) :
    Except PyExn Blog × Controller :=
  if !st.logged then (.error .illegalAccess, st)
  else
    let blog : Blog := { id := blog_id, name := blog_name, url := blog_url, email := blog_email,
                         post_dao := { posts := [], counter := 0 } }
    let r := BlogDAOJSON.create_blog st.blog_dao blog
    if !r.1 then (.error .illegalOperation, { st with blog_dao := r.2 })
    else (.ok blog, { st with blog_dao := r.2 })

def retrieve_blogs (st : Controller) (search_term : String) :
    Except PyExn (List Blog) × Controller :=
  if !st.logged then (.error .illegalAccess, st)
  else (.ok (BlogDAOJSON.retrieve_blogs st.blog_dao search_term), st)

/-- `Controller.update_blog`: the found blog object's fields are mutated
in place (visible through the dict entry that aliases it) before the
id-change branch, so the "new blog ID already exists" error leaves the
mutation behind, exactly as the source does. -/
def update_blog (st : Controller) (original_blog_id blog_id : Nat)
    (blog_name blog_url blog_email : String) : Except PyExn Bool × Controller :=
  if !st.logged then (.error .illegalAccess, st)
  else
    match BlogDAOJSON.search_blog st.blog_dao original_blog_id with
    | none => (.error .illegalOperation, st)
    | some blog =>
      if (match st.current_blog with | some cb => blogEq blog cb | none => false) then
        (.error .illegalOperation, st)
      else
        let blog1 := { blog with name := blog_name, url := blog_url, email := blog_email }
        let dao1 := dreplace st.blog_dao original_blog_id blog1
        if original_blog_id != blog_id then
          if (BlogDAOJSON.search_blog dao1 blog_id).isSome then
            (.error .illegalOperation, { st with blog_dao := dao1 })
          else
            let dao2 := (BlogDAOJSON.delete_blog dao1 original_blog_id).2
            let blog2 := { blog1 with id := blog_id }
            let dao3 := (BlogDAOJSON.create_blog dao2 blog2).2
            (.ok true, { st with blog_dao := dao3 })
        else
          let dao2 := (BlogDAOJSON.update_blog dao1 original_blog_id blog1).2
          (.ok true, { st with blog_dao := dao2 })

def delete_blog (st : Controller) (blog_id : Nat) : Except PyExn Bool × Controller :=
  if !st.logged then (.error .illegalAccess, st)
  else
    match BlogDAOJSON.search_blog st.blog_dao blog_id with
    | none => (.error .illegalOperation, st)
    | some blog =>
      if (match st.current_blog with | some cb => blogEq blog cb | none => false) then
        (.error .illegalOperation, st)
      else
        let r := BlogDAOJSON.delete_blog st.blog_dao blog_id
        (.ok r.1, { st with blog_dao := r.2 })

def list_blogs (st : Controller) : Except PyExn (List Blog) × Controller :=
  if !st.logged then (.error .illegalAccess, st)
  else (.ok (BlogDAOJSON.list_blogs st.blog_dao), st)

def set_current_blog (st : Controller) (blog_id : Nat) : Except PyExn Bool × Controller :=
  if !st.logged then (.error .illegalAccess, st)
  else
    match BlogDAOJSON.search_blog st.blog_dao blog_id with
    | none => (.error .illegalOperation, st)
    | some blog => (.ok true, { st with current_blog := some blog })

def get_current_blog (st : Controller) : Except PyExn (Option Blog) × Controller :=
  if !st.logged then (.error .illegalAccess, st)
  else (.ok st.current_blog, st)

def unset_current_blog (st : Controller) : Except PyExn Bool × Controller :=
  if !st.logged then (.error .illegalAccess, st)
  else (.ok true, { st with current_blog := none })

def search_post (st : Controller) (post_code : Nat) : Except PyExn (Option Post) × Controller :=
  if !st.logged then (.error .illegalAccess, st)
  else
    match st.current_blog with
    | none => (.error .noCurrentBlog, st)
    | some cb => (.ok (cb.search_post post_code), st)

def create_post (st : Controller) (post_title post_text : String) (now : Nat) :
    Except PyExn (Option Post) × Controller :=
  if !st.logged then (.error .illegalAccess, st)
  else
    match st.current_blog with
    | none => (.error .noCurrentBlog, st)
    | some cb =>
      let r := cb.create_post post_title post_text now
      (.ok r.1, st.putCurrent r.2)

def retrieve_posts (st : Controller) (search_term : String) :
    Except PyExn (List Post) × Controller :=
  if !st.logged then (.error .illegalAccess, st)
  else
    match st.current_blog with
    | none => (.error .noCurrentBlog, st)
    | some cb => (.ok (cb.retrieve_posts search_term), st)

def update_post (st : Controller) (post_code : Nat) (new_post_title new_post_text : String)
    (now : Nat) : Except PyExn Bool × Controller :=
  if !st.logged then (.error .illegalAccess, st)
  else
    match st.current_blog with
    | none => (.error .noCurrentBlog, st)
    | some cb =>
      let r := cb.update_post post_code new_post_title new_post_text now
      (.ok r.1, st.putCurrent r.2)

def delete_post (st : Controller) (post_code : Nat) : Except PyExn Bool × Controller :=
  if !st.logged then (.error .illegalAccess, st)
  else
    match st.current_blog with
    | none => (.error .noCurrentBlog, st)
    | some cb =>
      let r := cb.delete_post post_code
      (.ok r.1, st.putCurrent r.2)

def list_posts (st : Controller) : Except PyExn (List Post) × Controller :=
  if !st.logged then (.error .illegalAccess, st)
  else
    match st.current_blog with
    | none => (.error .noCurrentBlog, st)
    | some cb => (.ok cb.list_posts, st)

end Controller

/-! ### Loading and saving (`load_users`, `load_blogs` / `save_blogs`,
`load_posts`)

File contents are abstracted to their parsed form with explicit
alternatives for the error conditions the source distinguishes:
`none` models a missing file (`FileNotFoundError` / a false
`os.path.exists`), and for the JSON and pickle files `some (.error ())`
models a present file whose decoding raises
(`json.JSONDecodeError` / `pickle.PickleError`-family). -/

/-- Line-by-line accumulation of `Controller.load_users`: strip, skip
blank lines, then `username, password_hash = line.split(',')` — which
raises `ValueError` unless the split yields exactly two fields. -/
def loadUserLines : List String → List (String × String) →
    Except PyExn (List (String × String))
  | [], acc => .ok acc
  | l :: rest, acc =>
    let line := pyStrip l
    if line.isEmpty then loadUserLines rest acc
    else
      match pySplitComma line with
      | [username, ph] => loadUserLines rest (dset acc username ph)
      | _ => .error .valueError

/-- `Controller.load_users`: a missing file yields the empty user dict
(the only caught error); any malformed line propagates `ValueError`. -/
def load_users : Option (List String) → Except PyExn (List (String × String))
  | none => .ok []
  | some lines => loadUserLines lines []

/-- The serialized form of one blog in the JSON array. -/
structure BlogRec where
  id : Nat
  name : String
  url : String
  email : String
deriving Repr, DecidableEq

/-- The `Blog(...)` constructor call in `load_blogs` (the fresh per-blog
post store starts empty in memory; its own file load is modelled by
`load_posts`). -/
def blogFromRec (r : BlogRec) : Blog :=
  { id := r.id, name := r.name, url := r.url, email := r.email,
    post_dao := { posts := [], counter := 0 } }

/-- `BlogDAOJSON.load_blogs`: a missing file leaves the dict empty, a
`JSONDecodeError` is caught and leaves the dict empty, and a parsed array
is folded into the dict keyed by id.  No error escapes. -/
def load_blogs : Option (Except Unit (List BlogRec)) → Except PyExn Blogs
  | none => .ok []
  | some (.error _) => .ok []
  | some (.ok recs) => .ok (recs.foldl (fun m r => dset m r.id (blogFromRec r)) [])

/-- `BlogDAOJSON.save_blogs`: the dict values, in order, as records. -/
def save_blogs (blogs : Blogs) : List BlogRec :=
  (dvalues blogs).map (fun b => { id := b.id, name := b.name, url := b.url, email := b.email })

/-- `PostDAOPickle.load_posts`: a missing (or empty) file leaves the
store empty, a pickle/EOF/attribute error is caught and resets the store,
and a loaded list sets the counter to the maximal code present (0 for the
empty list).  No error escapes. -/
def load_posts : Option (Except Unit (List Post)) → PostDAOPickle
  | none => { posts := [], counter := 0 }
  | some (.error _) => { posts := [], counter := 0 }
  | some (.ok ps) =>
    { posts := ps,
      counter := if ps.isEmpty then 0 else (ps.map Post.code).foldl Nat.max 0 }

/-- Modelled from the spec sentence for the lookup claim: scan the stored
elements in order and return the first element that matches, or none when
no element matches. -/
def scanFirst {α : Type} (hit : α → Bool) : List α → Option α
  | [] => none
  | a :: rest => if hit a then some a else scanFirst hit rest

/-- The invariant that actually holds of a blog's post store: post codes
are pairwise distinct and the DAO counter is an upper bound on every code
present. -/
def PostStoreWF (dao : PostDAOPickle) : Prop :=
  (dao.posts.map Post.code).Nodup ∧ ∀ cd ∈ dao.posts.map Post.code, cd ≤ dao.counter

/-! ### Helper lemmas about the dict model -/

section DictLemmas

variable {κ α : Type} [DecidableEq κ]

theorem dget_dset_self (m : List (κ × α)) (k : κ) (v : α) :
    dget (dset m k v) k = some v := by
  induction m with
  | nil => simp [dget, dset]
  | cons kv rest ih =>
    obtain ⟨k0, v0⟩ := kv
    by_cases h0 : k0 = k
    · simp [dset, dget, h0]
    · simp [dset, dget, h0, ih]

theorem dget_dset_ne (m : List (κ × α)) (k k' : κ) (v : α) (h : k' ≠ k) :
    dget (dset m k v) k' = dget m k' := by
  induction m with
  | nil => simp [dget, dset, Ne.symm h]
  | cons kv rest ih =>
    obtain ⟨k0, v0⟩ := kv
    by_cases h0 : k0 = k
    · simp [dset, dget, h0, Ne.symm h]
    · simp [dset, dget, h0, ih]

theorem dget_ddel_ne (m : List (κ × α)) (k k' : κ) (h : k' ≠ k) :
    dget (ddel m k) k' = dget m k' := by
  induction m with
  | nil => simp [ddel]
  | cons kv rest ih =>
    obtain ⟨k0, v0⟩ := kv
    by_cases h0 : k0 = k
    · simp [ddel, dget, h0, Ne.symm h]
    · simp [ddel, dget, h0, ih]

theorem dget_dreplace_ne (m : List (κ × α)) (k k' : κ) (v : α) (h : k' ≠ k) :
    dget (dreplace m k v) k' = dget m k' := by
  induction m with
  | nil => simp [dreplace, dget]
  | cons kv rest ih =>
    obtain ⟨k0, v0⟩ := kv
    by_cases h0 : k0 = k
    · simp [dreplace, dget, h0, Ne.symm h, ih]
    · simp [dreplace, dget, h0, ih]

theorem dget_dreplace_self (m : List (κ × α)) (k : κ) (v : α) :
    dget (dreplace m k v) k = (dget m k).map (fun _ => v) := by
  induction m with
  | nil => simp [dreplace, dget]
  | cons kv rest ih =>
    obtain ⟨k0, v0⟩ := kv
    by_cases h0 : k0 = k
    · simp [dreplace, dget, h0]
    · simp [dreplace, dget, h0, ih]

theorem keys_dreplace (m : List (κ × α)) (k : κ) (v : α) :
    (dreplace m k v).map (·.1) = m.map (·.1) := by
  induction m with
  | nil => simp [dreplace]
  | cons kv rest ih =>
    obtain ⟨k0, v0⟩ := kv
    by_cases h0 : k0 = k
    · simp [dreplace, h0, ih]
    · simp [dreplace, h0, ih]

theorem dset_eq_append (m : List (κ × α)) (k : κ) (v : α) (h : k ∉ m.map (·.1)) :
    dset m k v = m ++ [(k, v)] := by
  induction m with
  | nil => simp [dset]
  | cons kv rest ih =>
    obtain ⟨k0, v0⟩ := kv
    simp only [List.map_cons, List.mem_cons, not_or] at h
    simp [dset, Ne.symm h.1, ih h.2]

theorem dget_of_mem_nodup (m : List (κ × α)) (k : κ) (v : α)
    (hnd : (m.map (·.1)).Nodup) (hmem : (k, v) ∈ m) : dget m k = some v := by
  induction m with
  | nil => simp at hmem
  | cons kv rest ih =>
    obtain ⟨k0, v0⟩ := kv
    simp only [List.map_cons, List.nodup_cons] at hnd
    rcases List.mem_cons.mp hmem with h | h
    · cases h
      simp [dget]
    · have hk : k0 ≠ k := by
        intro he
        exact hnd.1 (he ▸ (List.mem_map.mpr ⟨(k, v), h, rfl⟩))
      simp [dget, hk, ih hnd.2 h]

end DictLemmas

/-! ### Helper lemmas about scans and post-list transformations -/

theorem scanFirst_eq_none_iff {α : Type} (hit : α → Bool) (l : List α) :
    scanFirst hit l = none ↔ ∀ a ∈ l, hit a = false := by
  induction l with
  | nil => simp [scanFirst]
  | cons a rest ih =>
    by_cases h : hit a <;> simp [scanFirst, h, ih]

theorem scanFirst_eq_some {α : Type} (hit : α → Bool) (l : List α) (a : α)
    (h : scanFirst hit l = some a) :
    hit a = true ∧ ∃ i, ∃ hi : i < l.length,
      l.get ⟨i, hi⟩ = a ∧ ∀ b ∈ l.take i, hit b = false := by
  induction l with
  | nil => simp [scanFirst] at h
  | cons a0 rest ih =>
    by_cases h0 : hit a0
    · simp only [scanFirst, h0, if_true, Option.some.injEq] at h
      subst h
      exact ⟨h0, 0, by simp, rfl, by simp⟩
    · simp only [scanFirst, h0, if_false] at h
      obtain ⟨hhit, i, hi, hget, hbefore⟩ := ih h
      refine ⟨hhit, i + 1, by simpa using hi, hget, ?_⟩
      intro b hb
      rcases List.mem_cons.mp (by simpa using hb) with hb | hb
      · simpa [hb] using h0
      · exact hbefore b hb

theorem findPost_eq_scanFirst (l : List Post) (c : Nat) :
    findPost l c = scanFirst (fun p => p.code == c) l := by
  induction l with
  | nil => rfl
  | cons p rest ih => by_cases h : p.code == c <;> simp [findPost, scanFirst, h, ih]

theorem dget_eq_scanFirst {κ α : Type} [DecidableEq κ] (m : List (κ × α)) (k : κ) :
    dget m k = (scanFirst (fun kv => decide (kv.1 = k)) m).map (·.2) := by
  induction m with
  | nil => rfl
  | cons kv rest ih =>
    obtain ⟨k0, v0⟩ := kv
    by_cases h : k0 = k <;> simp [dget, scanFirst, h, ih]

theorem updateFirstPost_map_code (l : List Post) (c : Nat) (t x : String) (now : Nat) :
    (updateFirstPost l c t x now).map Post.code = l.map Post.code := by
  induction l with
  | nil => rfl
  | cons p rest ih =>
    by_cases h : p.code == c <;> simp [updateFirstPost, h, ih, Post.update]

theorem deleteFirstPost_sublist (l : List Post) (c : Nat) :
    (deleteFirstPost l c).Sublist l := by
  induction l with
  | nil => simp [deleteFirstPost]
  | cons p rest ih =>
    by_cases h : p.code == c
    · simp only [deleteFirstPost, h, if_pos]
      exact List.sublist_cons_self p rest
    · simp only [deleteFirstPost, h, if_neg, Bool.false_eq_true, not_false_iff]
      exact ih.cons₂ p

/-! ### Equation lemmas for the blog-level post operations -/

theorem blog_create_post_eq (b : Blog) (t x : String) (now : Nat) :
    b.create_post t x now =
      (some (mkPost (b.post_dao.counter + 1) t x now),
        { b with post_dao :=
            { posts := b.post_dao.posts ++ [mkPost (b.post_dao.counter + 1) t x now]
              counter := b.post_dao.counter + 1 } }) := by
  simp [Blog.create_post, PostDAOPickle.create_post, mkPost,
    Nat.max_eq_right (Nat.le_succ _)]

theorem blog_update_post_eq (b : Blog) (c : Nat) (t x : String) (now : Nat) :
    b.update_post c t x now =
      if (findPost b.post_dao.posts c).isSome then
        (true, { b with post_dao :=
          { b.post_dao with posts := updateFirstPost b.post_dao.posts c t x now } })
      else (false, b) := by
  rcases h : findPost b.post_dao.posts c with _ | q <;>
    simp [Blog.update_post, Blog.search_post, PostDAOPickle.search_post,
      PostDAOPickle.update_post, h]

theorem blog_delete_post_eq (b : Blog) (c : Nat) :
    b.delete_post c =
      if (findPost b.post_dao.posts c).isSome then
        (true, { b with post_dao :=
          { b.post_dao with posts := deleteFirstPost b.post_dao.posts c } })
      else (false, b) := by
  rcases h : findPost b.post_dao.posts c with _ | q <;>
    simp [Blog.delete_post, Blog.search_post, PostDAOPickle.search_post,
      PostDAOPickle.delete_post, h]

/-! ### Equation lemmas for the controller-level post operations -/

theorem ctrl_create_post_eq (st : Controller) (cb : Blog) (hl : st.logged = true)
    (hc : st.current_blog = some cb) (t x : String) (now : Nat) :
    st.create_post t x now =
      (.ok (some (mkPost (cb.post_dao.counter + 1) t x now)),
        st.putCurrent { cb with post_dao :=
          { posts := cb.post_dao.posts ++ [mkPost (cb.post_dao.counter + 1) t x now]
            counter := cb.post_dao.counter + 1 } }) := by
  simp [Controller.create_post, hl, hc, blog_create_post_eq]

theorem ctrl_update_post_eq (st : Controller) (cb : Blog) (hl : st.logged = true)
    (hc : st.current_blog = some cb) (c : Nat) (t x : String) (now : Nat) :
    st.update_post c t x now =
      if (findPost cb.post_dao.posts c).isSome then
        (.ok true, st.putCurrent { cb with post_dao :=
          { cb.post_dao with posts := updateFirstPost cb.post_dao.posts c t x now } })
      else (.ok false, st.putCurrent cb) := by
  by_cases hf : (findPost cb.post_dao.posts c).isSome = true
  · simp [Controller.update_post, hl, hc, blog_update_post_eq, hf]
  · simp [Controller.update_post, hl, hc, blog_update_post_eq, hf]

theorem ctrl_delete_post_eq (st : Controller) (cb : Blog) (hl : st.logged = true)
    (hc : st.current_blog = some cb) (c : Nat) :
    st.delete_post c =
      if (findPost cb.post_dao.posts c).isSome then
        (.ok true, st.putCurrent { cb with post_dao :=
          { cb.post_dao with posts := deleteFirstPost cb.post_dao.posts c } })
      else (.ok false, st.putCurrent cb) := by
  by_cases hf : (findPost cb.post_dao.posts c).isSome = true
  · simp [Controller.delete_post, hl, hc, blog_delete_post_eq, hf]
  · simp [Controller.delete_post, hl, hc, blog_delete_post_eq, hf]

/-- Writing the current blog through `putCurrent` preserves the key list of
the blog dict and, when the dict entry under the current id aliases the
current blog, the id/name/url/email fields of every entry. -/
theorem putCurrent_preserves (st : Controller) (cb cbn : Blog)
    (halias : ∀ b0, dget st.blog_dao cb.id = some b0 → b0 = cb)
    (hid : cbn.id = cb.id) (hfields : blogFields cbn = blogFields cb) (k : Nat) :
    (st.putCurrent cbn).blog_dao.map (·.1) = st.blog_dao.map (·.1) ∧
    fieldsAt (st.putCurrent cbn).blog_dao k = fieldsAt st.blog_dao k := by
  constructor
  · exact keys_dreplace _ _ _
  · show fieldsAt (dreplace st.blog_dao cbn.id cbn) k = _
    rw [hid]
    by_cases hk : k = cb.id
    · rw [fieldsAt, fieldsAt, hk, dget_dreplace_self]
      rcases hd : dget st.blog_dao cb.id with _ | b0
      · rfl
      · simp [halias b0 hd, hfields]
    · rw [fieldsAt, fieldsAt, dget_dreplace_ne _ _ _ _ hk]

/-! ### Claims -/

/-- C1: every Controller blog operation invoked while no user is logged in
raises `IllegalAccessException` and leaves the whole state (in particular
the blog store) unchanged; every Controller post operation invoked while a
user is logged in but no current blog is selected raises
`NoCurrentBlogException` and leaves the whole state (in particular every
post store) unchanged. -/
theorem claim_c1 :
    (∀ st : Controller, st.logged = false →
      ∀ (i j : Nat) (n u e t : String),
        st.search_blog i = (.error .illegalAccess, st) ∧
        st.create_blog i n u e = (.error .illegalAccess, st) ∧
        st.retrieve_blogs t = (.error .illegalAccess, st) ∧
        st.update_blog i j n u e = (.error .illegalAccess, st) ∧
        st.delete_blog i = (.error .illegalAccess, st) ∧
        st.list_blogs = (.error .illegalAccess, st) ∧
        st.set_current_blog i = (.error .illegalAccess, st) ∧
        st.get_current_blog = (.error .illegalAccess, st) ∧
        st.unset_current_blog = (.error .illegalAccess, st)) ∧
    (∀ st : Controller, st.logged = true → st.current_blog = none →
      ∀ (c now : Nat) (t x : String),
        st.search_post c = (.error .noCurrentBlog, st) ∧
        st.create_post t x now = (.error .noCurrentBlog, st) ∧
        st.retrieve_posts t = (.error .noCurrentBlog, st) ∧
        st.update_post c t x now = (.error .noCurrentBlog, st) ∧
        st.delete_post c = (.error .noCurrentBlog, st) ∧
        st.list_posts = (.error .noCurrentBlog, st)) := by
  constructor
  · intro st hs i j n u e t
    simp [Controller.search_blog, Controller.create_blog, Controller.retrieve_blogs,
      Controller.update_blog, Controller.delete_blog, Controller.list_blogs,
      Controller.set_current_blog, Controller.get_current_blog,
      Controller.unset_current_blog, hs]
  · intro st hs hc c now t x
    simp [Controller.search_post, Controller.create_post, Controller.retrieve_posts,
      Controller.update_post, Controller.delete_post, Controller.list_posts, hs, hc]

/-- Witness for C1 at a concrete logged-out state and a concrete
logged-in state with no current blog. -/
theorem claim_c1_witness :
    (Controller.mk [] none none false [] none).search_blog 7 =
      (.error .illegalAccess, Controller.mk [] none none false [] none) ∧
    (Controller.mk [] none none true [] none).create_post "t" "x" 0 =
      (.error .noCurrentBlog, Controller.mk [] none none true [] none) :=
  ⟨(claim_c1.1 _ rfl 7 7 "" "" "" "").1,
   (claim_c1.2 _ rfl rfl 7 0 "t" "x").2.1⟩

/-- C2: `Controller.login` succeeds (returns `True` and records the
logged-in session for that username) exactly when no user is logged in,
the username is a key of the credential store and the SHA-256 hex digest
of the password equals the stored hash; otherwise it raises
`DuplicateLoginException` (already logged in) or `InvalidLoginException`
(unknown username or non-matching hash) and leaves the state unchanged. -/
theorem claim_c2 (st : Controller) (u p : String) :
    (st.logged = true → st.login u p = (.error .duplicateLogin, st)) ∧
    (st.logged = false → dget st.users u = none →
      st.login u p = (.error .invalidLogin, st)) ∧
    (∀ stored, st.logged = false → dget st.users u = some stored →
      sha256Hex p ≠ stored → st.login u p = (.error .invalidLogin, st)) ∧
    (∀ stored, st.logged = false → dget st.users u = some stored →
      sha256Hex p = stored → st.login u p = (.ok true,
        { st with
            username := some u
            password_hash := some (sha256Hex p)
            logged := true })) := by
  refine ⟨?_, ?_, ?_, ?_⟩
  · intro hl
    simp [Controller.login, hl]
  · intro hl hu
    simp [Controller.login, hl, hu]
  · intro stored hl hu hne
    simp [Controller.login, hl, hu, hne]
  · intro stored hl hu he
    simp [Controller.login, hl, hu, he]

/-- Witness for C2 at a concrete already-logged-in state. -/
theorem claim_c2_witness :
    (Controller.mk [("u", "h")] none none true [] none).login "u" "p" =
      (.error .duplicateLogin, Controller.mk [("u", "h")] none none true [] none) :=
  (claim_c2 _ "u" "p").1 rfl

/-- C3: both store lookups behave as the in-order linear scan of the
stored collection: `search_post` equals the first-match scan of the posts
list and `search_blog` the first-match scan of the blog dict entries;
each returns `None` exactly when no element matches, and a hit is the
first matching element (nothing before it matches). -/
theorem claim_c3 :
    (∀ (dao : PostDAOPickle) (c : Nat),
      dao.search_post c = scanFirst (fun p => p.code == c) dao.posts ∧
      (dao.search_post c = none ↔ ∀ p ∈ dao.posts, p.code ≠ c) ∧
      ∀ p, dao.search_post c = some p → p.code = c ∧
        ∃ i, ∃ hi : i < dao.posts.length,
          dao.posts.get ⟨i, hi⟩ = p ∧ ∀ q ∈ dao.posts.take i, q.code ≠ c) ∧
    (∀ (blogs : Blogs) (k : Nat),
      BlogDAOJSON.search_blog blogs k =
        (scanFirst (fun kv => decide (kv.1 = k)) blogs).map (·.2) ∧
      (BlogDAOJSON.search_blog blogs k = none ↔ ∀ kv ∈ blogs, kv.1 ≠ k) ∧
      ∀ b, BlogDAOJSON.search_blog blogs k = some b →
        ∃ j, ∃ hj : j < blogs.length,
          blogs.get ⟨j, hj⟩ = (k, b) ∧ ∀ kv ∈ blogs.take j, kv.1 ≠ k) := by
  constructor
  · intro dao c
    refine ⟨findPost_eq_scanFirst dao.posts c, ?_, ?_⟩
    · rw [PostDAOPickle.search_post, findPost_eq_scanFirst, scanFirst_eq_none_iff]
      constructor
      · intro hall q hq
        simpa using hall q hq
      · intro hall q hq
        simpa using hall q hq
    · intro p hp
      rw [PostDAOPickle.search_post, findPost_eq_scanFirst] at hp
      obtain ⟨hhit, i, hi, hget, hbef⟩ := scanFirst_eq_some _ _ _ hp
      refine ⟨by simpa using hhit, i, hi, hget, ?_⟩
      intro q hq
      simpa using hbef q hq
  · intro blogs k
    refine ⟨dget_eq_scanFirst blogs k, ?_, ?_⟩
    · rw [BlogDAOJSON.search_blog, dget_eq_scanFirst, Option.map_eq_none',
        scanFirst_eq_none_iff]
      constructor
      · intro hall kv hkv
        simpa using hall kv hkv
      · intro hall kv hkv
        simpa using hall kv hkv
    · intro b hb
      rw [BlogDAOJSON.search_blog, dget_eq_scanFirst] at hb
      obtain ⟨kv, hscan, hsnd⟩ := Option.map_eq_some'.mp hb
      obtain ⟨hhit, j, hj, hget, hbef⟩ := scanFirst_eq_some _ _ _ hscan
      obtain ⟨kv1, kv2⟩ := kv
      have hk1 : kv1 = k := by simpa using hhit
      refine ⟨j, hj, ?_, ?_⟩
      · rw [hget, hk1]
        simp only at hsnd
        rw [hsnd]
      · intro kv' hkv'
        simpa using hbef kv' hkv'

/-- C4 counterexample: the claim says the only load-time failure the
system recovers from is a missing file, but `load_blogs` catches
`json.JSONDecodeError` and `load_posts` catches pickle/EOF/attribute
errors: on a present-but-malformed file each returns normally with an
empty store instead of propagating the error. -/
theorem claim_c4_counterexample :
    load_blogs (some (Except.error ())) = Except.ok [] ∧
    load_posts (some (Except.error ())) = { posts := [], counter := 0 } := by
  exact ⟨rfl, rfl⟩

/-- C4 amended: a missing file yields an empty store for users, blogs and
posts; the users loader catches only file-not-found (a malformed line
propagates `ValueError`), while the blogs loader additionally catches
malformed-JSON errors and the posts loader additionally catches
pickle/EOF/attribute errors, each yielding an empty store. -/
theorem claim_c4_amended :
    load_users none = Except.ok [] ∧
    load_blogs none = Except.ok [] ∧
    load_posts none = { posts := [], counter := 0 } ∧
    load_users (some ["not a valid line"]) = Except.error PyExn.valueError ∧
    (∀ e, load_blogs (some (Except.error e)) = Except.ok []) ∧
    (∀ e, load_posts (some (Except.error e)) = { posts := [], counter := 0 }) := by
  exact ⟨rfl, rfl, rfl, rfl, fun _ => rfl, fun _ => rfl⟩

/-- C8 counterexample: the claim says the DAO counter always equals the
maximum post code present (0 when there are no posts), but `delete_post`
never lowers the counter: create one post in a fresh blog and delete it,
and the store is empty while the counter is 1, not 0. -/
theorem claim_c8_counterexample :
    (((Blog.mk 1 "n" "u" "e" ⟨[], 0⟩).create_post "t" "x" 0).2.delete_post 1).2.post_dao.posts
      = [] ∧
    (((Blog.mk 1 "n" "u" "e" ⟨[], 0⟩).create_post "t" "x" 0).2.delete_post 1).2.post_dao.counter
      ≠ 0 := by
  exact ⟨rfl, by decide⟩

/-- C8 amended: within any single blog, post codes are pairwise distinct
and the DAO counter is an upper bound on every post code present (not
necessarily the exact maximum, since `delete_post` never lowers it);
`Blog.create_post` assigns the new post the code `counter + 1`, which is
strictly greater than every existing post's code, and the invariant is
preserved by `create_post`, `update_post` and `delete_post`. -/
theorem claim_c8_amended (b : Blog) (hwf : PostStoreWF b.post_dao)
    (t x : String) (c now : Nat) :
    (∀ q ∈ b.post_dao.posts, q.code < b.post_dao.counter + 1) ∧
    (b.create_post t x now).1 = some (mkPost (b.post_dao.counter + 1) t x now) ∧
    PostStoreWF (b.create_post t x now).2.post_dao ∧
    PostStoreWF (b.update_post c t x now).2.post_dao ∧
    PostStoreWF (b.delete_post c).2.post_dao := by
  obtain ⟨hnd, hub⟩ := hwf
  have hlt : ∀ q ∈ b.post_dao.posts, q.code < b.post_dao.counter + 1 := fun q hq =>
    Nat.lt_succ_of_le (hub q.code (List.mem_map.mpr ⟨q, hq, rfl⟩))
  refine ⟨hlt, ?_, ?_, ?_, ?_⟩
  · rw [blog_create_post_eq]
  · rw [blog_create_post_eq]
    constructor
    · simp only [List.map_append, List.map_cons, List.map_nil, mkPost]
      rw [List.nodup_append]
      refine ⟨hnd, List.nodup_singleton _, ?_⟩
      intro cd hcd hcd1
      simp only [List.mem_singleton] at hcd1
      obtain ⟨q, hq, hqc⟩ := List.mem_map.mp hcd
      have := hlt q hq
      omega
    · intro cd hcd
      simp only [List.map_append, List.map_cons, List.map_nil, List.mem_append,
        List.mem_singleton, mkPost] at hcd
      show cd ≤ b.post_dao.counter + 1
      rcases hcd with hcd | hcd
      · exact le_trans (hub cd hcd) (Nat.le_succ _)
      · omega
  · rw [blog_update_post_eq]
    by_cases hf : (findPost b.post_dao.posts c).isSome = true
    · rw [if_pos hf]
      refine ⟨?_, ?_⟩
      · show ((updateFirstPost b.post_dao.posts c t x now).map Post.code).Nodup
        rw [updateFirstPost_map_code]
        exact hnd
      · intro cd hcd
        simp only [updateFirstPost_map_code] at hcd
        exact hub cd hcd
    · rw [if_neg hf]
      exact ⟨hnd, hub⟩
  · rw [blog_delete_post_eq]
    have hsub : ((deleteFirstPost b.post_dao.posts c).map Post.code).Sublist
        (b.post_dao.posts.map Post.code) :=
      (deleteFirstPost_sublist b.post_dao.posts c).map Post.code
    by_cases hf : (findPost b.post_dao.posts c).isSome = true
    · rw [if_pos hf]
      exact ⟨hnd.sublist hsub, fun cd hcd => hub cd (hsub.subset hcd)⟩
    · rw [if_neg hf]
      exact ⟨hnd, hub⟩

/-- Witness for C8 (amended) at a concrete two-post store. -/
theorem claim_c8_witness :
    PostStoreWF ((Blog.mk 1 "n" "u" "e"
      (PostDAOPickle.mk [⟨1, "a", "b", 0, 0⟩, ⟨2, "c", "d", 0, 0⟩] 2)).create_post
        "t" "x" 5).2.post_dao :=
  (claim_c8_amended _ (by unfold PostStoreWF; decide) "t" "x" 1 5).2.2.1

/-- C10: `list_posts` returns the posts in reverse insertion order (the
most recently created post first: a freshly created post is the head of
`list_posts`, and the underlying list is reversed so the first-created
post comes last), and `update_post` preserves the sequence of post codes
of `list_posts`, hence the updated post keeps its position. -/
theorem claim_c10 (dao : PostDAOPickle) (post : Post) (c now : Nat) (t x : String) :
    dao.list_posts = dao.posts.reverse ∧
    (dao.create_post post).2.list_posts = post :: dao.list_posts ∧
    ((dao.update_post c t x now).2.list_posts).map Post.code =
      dao.list_posts.map Post.code := by
  refine ⟨rfl, ?_, ?_⟩
  · simp [PostDAOPickle.create_post, PostDAOPickle.list_posts]
  · rcases h : findPost dao.posts c with _ | q
    · simp [PostDAOPickle.update_post, h, PostDAOPickle.list_posts]
    · simp only [PostDAOPickle.update_post, h, PostDAOPickle.list_posts,
        List.map_reverse, updateFirstPost_map_code]

/-- Witness for C3: concrete no-match lookups in both stores. -/
theorem claim_c3_witness :
    (PostDAOPickle.mk [⟨1, "t", "x", 0, 0⟩] 1).search_post 2 = none ∧
    BlogDAOJSON.search_blog [(1, Blog.mk 1 "n" "u" "e" ⟨[], 0⟩)] 2 = none :=
  ⟨(claim_c3.1 _ 2).2.1.mpr (by decide), (claim_c3.2 _ 2).2.1.mpr (by decide)⟩

/-- C5: with a user logged in and a current blog selected, every
Controller post operation acts exactly on the current blog's post store:
the read operations answer from it and leave the state unchanged, and
create/update/delete produce an updated current blog (same id) whose post
list is the expected transformation of the current blog's list, written
through only to the dict entry with the current blog's id — the post
store of every blog with a different id is untouched. -/
theorem claim_c5 (st : Controller) (cb : Blog) (hl : st.logged = true)
    (hc : st.current_blog = some cb) (c now : Nat) (t x : String) :
    st.search_post c = (.ok (cb.search_post c), st) ∧
    st.retrieve_posts t = (.ok (cb.retrieve_posts t), st) ∧
    st.list_posts = (.ok cb.list_posts, st) ∧
    (∃ cb', st.create_post t x now =
        (.ok (some (mkPost (cb.post_dao.counter + 1) t x now)), st.putCurrent cb') ∧
      cb'.id = cb.id ∧
      (st.create_post t x now).2.current_blog = some cb' ∧
      cb'.post_dao.posts = cb.post_dao.posts ++ [mkPost (cb.post_dao.counter + 1) t x now] ∧
      mkPost (cb.post_dao.counter + 1) t x now ∈ cb'.post_dao.posts) ∧
    (∃ cb', (st.update_post c t x now).2 = st.putCurrent cb' ∧ cb'.id = cb.id ∧
      (st.update_post c t x now).2.current_blog = some cb' ∧
      cb'.post_dao.posts = (if (findPost cb.post_dao.posts c).isSome then
        updateFirstPost cb.post_dao.posts c t x now else cb.post_dao.posts)) ∧
    (∃ cb', (st.delete_post c).2 = st.putCurrent cb' ∧ cb'.id = cb.id ∧
      (st.delete_post c).2.current_blog = some cb' ∧
      cb'.post_dao.posts = (if (findPost cb.post_dao.posts c).isSome then
        deleteFirstPost cb.post_dao.posts c else cb.post_dao.posts)) ∧
    (∀ k, k ≠ cb.id →
      dget (st.create_post t x now).2.blog_dao k = dget st.blog_dao k ∧
      dget (st.update_post c t x now).2.blog_dao k = dget st.blog_dao k ∧
      dget (st.delete_post c).2.blog_dao k = dget st.blog_dao k) := by
  have hcreate := ctrl_create_post_eq st cb hl hc t x now
  have hupdate := ctrl_update_post_eq st cb hl hc c t x now
  have hdelete := ctrl_delete_post_eq st cb hl hc c
  refine ⟨?_, ?_, ?_, ?_, ?_, ?_, ?_⟩
  · simp [Controller.search_post, hl, hc]
  · simp [Controller.retrieve_posts, hl, hc]
  · simp [Controller.list_posts, hl, hc]
  · refine ⟨{ cb with post_dao :=
        { posts := cb.post_dao.posts ++ [mkPost (cb.post_dao.counter + 1) t x now]
          counter := cb.post_dao.counter + 1 } }, hcreate, rfl, ?_, rfl, by simp⟩
    rw [hcreate]
    rfl
  · by_cases hf : (findPost cb.post_dao.posts c).isSome = true
    · rw [if_pos hf] at hupdate
      refine ⟨{ cb with post_dao :=
          { cb.post_dao with posts := updateFirstPost cb.post_dao.posts c t x now } },
        by rw [hupdate], rfl, by rw [hupdate]; rfl, by rw [if_pos hf]⟩
    · rw [if_neg hf] at hupdate
      refine ⟨cb, by rw [hupdate], rfl, by rw [hupdate]; rfl, by rw [if_neg hf]⟩
  · by_cases hf : (findPost cb.post_dao.posts c).isSome = true
    · rw [if_pos hf] at hdelete
      refine ⟨{ cb with post_dao :=
          { cb.post_dao with posts := deleteFirstPost cb.post_dao.posts c } },
        by rw [hdelete], rfl, by rw [hdelete]; rfl, by rw [if_pos hf]⟩
    · rw [if_neg hf] at hdelete
      refine ⟨cb, by rw [hdelete], rfl, by rw [hdelete]; rfl, by rw [if_neg hf]⟩
  · intro k hk
    refine ⟨?_, ?_, ?_⟩
    · rw [hcreate]
      exact dget_dreplace_ne _ _ _ _ hk
    · rw [hupdate]
      rcases hf : (findPost cb.post_dao.posts c).isSome <;>
        simp only [hf, Bool.false_eq_true, if_false, if_true] <;>
        exact dget_dreplace_ne _ _ _ _ hk
    · rw [hdelete]
      rcases hf : (findPost cb.post_dao.posts c).isSome <;>
        simp only [hf, Bool.false_eq_true, if_false, if_true] <;>
        exact dget_dreplace_ne _ _ _ _ hk

/-- Witness for C5 at a concrete two-blog state. -/
theorem claim_c5_witness :
    (Controller.mk [] none none true
        [(1, Blog.mk 1 "a" "u" "e" ⟨[], 0⟩), (2, Blog.mk 2 "b" "v" "f" ⟨[], 0⟩)]
        (some (Blog.mk 1 "a" "u" "e" ⟨[], 0⟩))).search_post 3 =
      (.ok none,
        Controller.mk [] none none true
          [(1, Blog.mk 1 "a" "u" "e" ⟨[], 0⟩), (2, Blog.mk 2 "b" "v" "f" ⟨[], 0⟩)]
          (some (Blog.mk 1 "a" "u" "e" ⟨[], 0⟩))) :=
  (claim_c5
    (Controller.mk [] none none true
      [(1, Blog.mk 1 "a" "u" "e" ⟨[], 0⟩), (2, Blog.mk 2 "b" "v" "f" ⟨[], 0⟩)]
      (some (Blog.mk 1 "a" "u" "e" ⟨[], 0⟩)))
    (Blog.mk 1 "a" "u" "e" ⟨[], 0⟩) rfl rfl 3 0 "t" "x").1

/-- C9: while the blog found under the targeted id is equal (in the
sense of `Blog.__eq__`) to the selected current blog, `update_blog`
raises `IllegalOperationException` leaving the blog store and the current
selection unchanged, and `delete_blog` raises
`IllegalOperationException` leaving the blog store unchanged. -/
theorem claim_c9 (st : Controller) (cb blog : Blog) (oid nid : Nat) (n u e : String)
    (hl : st.logged = true) (hc : st.current_blog = some cb)
    (hb : BlogDAOJSON.search_blog st.blog_dao oid = some blog)
    (heq : blogEq blog cb = true) :
    st.update_blog oid nid n u e = (.error .illegalOperation, st) ∧
    st.delete_blog oid = (.error .illegalOperation, st) := by
  constructor
  · simp [Controller.update_blog, hl, hc, hb, heq]
  · simp [Controller.delete_blog, hl, hc, hb, heq]

/-- Witness for C9: a concrete state whose single blog is current. -/
theorem claim_c9_witness :
    (Controller.mk [] none none true [(1, Blog.mk 1 "n" "u" "e" ⟨[], 0⟩)]
        (some (Blog.mk 1 "n" "u" "e" ⟨[], 0⟩))).delete_blog 1 =
      (.error .illegalOperation,
        Controller.mk [] none none true [(1, Blog.mk 1 "n" "u" "e" ⟨[], 0⟩)]
          (some (Blog.mk 1 "n" "u" "e" ⟨[], 0⟩))) :=
  (claim_c9
    (Controller.mk [] none none true [(1, Blog.mk 1 "n" "u" "e" ⟨[], 0⟩)]
      (some (Blog.mk 1 "n" "u" "e" ⟨[], 0⟩)))
    (Blog.mk 1 "n" "u" "e" ⟨[], 0⟩) (Blog.mk 1 "n" "u" "e" ⟨[], 0⟩)
    1 2 "a" "b" "c" rfl rfl (by decide) (by decide)).2

/-- Folding the parsed JSON records into the blog dict appends one fresh
entry per record when the record ids are distinct and disjoint from the
accumulator's keys. -/
theorem load_fold_eq (recs : List BlogRec) (acc : Blogs)
    (hdisj : ∀ r ∈ recs, r.id ∉ acc.map (·.1))
    (hnd : (recs.map (·.id)).Nodup) :
    recs.foldl (fun m r => dset m r.id (blogFromRec r)) acc =
      acc ++ recs.map (fun r => (r.id, blogFromRec r)) := by
  induction recs generalizing acc with
  | nil => simp
  | cons r rest ih =>
    simp only [List.map_cons, List.nodup_cons] at hnd
    simp only [List.foldl_cons, List.map_cons]
    rw [dset_eq_append _ _ _ (hdisj r (List.mem_cons_self r rest))]
    rw [ih]
    · simp
    · intro r2 hr2
      simp only [List.map_append, List.mem_append, List.map_cons, List.map_nil,
        List.mem_singleton, not_or]
      refine ⟨hdisj r2 (List.mem_cons_of_mem r hr2), ?_⟩
      intro he
      exact hnd.1 (he ▸ List.mem_map.mpr ⟨r2, hr2, rfl⟩)
    · exact hnd.2

/-- C7: saving the blog dict as a JSON array of id/name/url/email records
and loading it back yields a dict that holds, under every saved blog's
id, a blog with that id, name, url and email (with a freshly initialised
post store, as the `Blog` constructor creates).  The hypotheses state the
dict invariants `BlogDAOJSON` maintains: keys are distinct and each entry
is keyed by its blog's id. -/
theorem claim_c7 (m : Blogs) (hnd : (m.map (·.1)).Nodup)
    (hid : ∀ kv ∈ m, kv.1 = kv.2.id) (b : Blog) (hb : b ∈ dvalues m) :
    ∃ L, load_blogs (some (.ok (save_blogs m))) = Except.ok L ∧
      dget L b.id = some (blogFromRec (BlogRec.mk b.id b.name b.url b.email)) := by
  have hkeys : (save_blogs m).map (·.id) = m.map (·.1) := by
    rw [save_blogs, dvalues, List.map_map, List.map_map]
    exact List.map_congr_left (fun kv hkv => (hid kv hkv).symm)
  have hnd2 : ((save_blogs m).map (·.id)).Nodup := by
    rw [hkeys]
    exact hnd
  refine ⟨_, rfl, ?_⟩
  show dget ((save_blogs m).foldl (fun acc r => dset acc r.id (blogFromRec r)) []) b.id = _
  rw [load_fold_eq _ _ (by simp) hnd2, List.nil_append]
  apply dget_of_mem_nodup
  · rw [List.map_map]
    exact hnd2
  · apply List.mem_map.mpr
    refine ⟨BlogRec.mk b.id b.name b.url b.email, ?_, rfl⟩
    rw [save_blogs]
    exact List.mem_map.mpr ⟨b, hb, rfl⟩

/-- Witness for C7 at a concrete two-blog store. -/
theorem claim_c7_witness :
    ∃ L, load_blogs (some (.ok (save_blogs
        [(1, Blog.mk 1 "a" "u" "e" ⟨[], 0⟩), (2, Blog.mk 2 "b" "v" "f" ⟨[], 0⟩)])))
        = Except.ok L ∧
      dget L 2 = some (blogFromRec (BlogRec.mk 2 "b" "v" "f")) :=
  claim_c7 [(1, Blog.mk 1 "a" "u" "e" ⟨[], 0⟩), (2, Blog.mk 2 "b" "v" "f" ⟨[], 0⟩)]
    (by decide) (by decide) (Blog.mk 2 "b" "v" "f" ⟨[], 0⟩) (by decide)

/-- C6: the blog store and the per-blog post stores are independent.
Post operations (with the dict entry under the current id aliasing the
current blog, as the Controller API maintains) preserve the key list of
the blog dict and the id/name/url/email fields of every entry.  Blog
operations preserve the post list of every stored blog: `create_blog` and
`delete_blog` leave the post list under every other key unchanged, and
`update_blog` leaves every post list unchanged except that a successful
id change moves the unchanged post list from the old key to the new one
(on any error path, and on a same-id update, every post list is
unchanged). -/
theorem claim_c6 :
    (∀ (st : Controller) (cb : Blog), st.logged = true → st.current_blog = some cb →
      (∀ b0, dget st.blog_dao cb.id = some b0 → b0 = cb) →
      ∀ (c now : Nat) (t x : String) (k : Nat),
        ((st.create_post t x now).2.blog_dao.map (·.1) = st.blog_dao.map (·.1) ∧
          fieldsAt (st.create_post t x now).2.blog_dao k = fieldsAt st.blog_dao k) ∧
        ((st.update_post c t x now).2.blog_dao.map (·.1) = st.blog_dao.map (·.1) ∧
          fieldsAt (st.update_post c t x now).2.blog_dao k = fieldsAt st.blog_dao k) ∧
        ((st.delete_post c).2.blog_dao.map (·.1) = st.blog_dao.map (·.1) ∧
          fieldsAt (st.delete_post c).2.blog_dao k = fieldsAt st.blog_dao k)) ∧
    (∀ (st : Controller), st.logged = true →
      ∀ (i k : Nat) (n u e : String), k ≠ i →
        postsAt (st.create_blog i n u e).2.blog_dao k = postsAt st.blog_dao k ∧
        postsAt (st.delete_blog i).2.blog_dao k = postsAt st.blog_dao k) ∧
    (∀ (st : Controller), st.logged = true →
      ∀ (oid nid : Nat) (n u e : String),
        (∀ k, k ≠ oid → k ≠ nid →
          postsAt (st.update_blog oid nid n u e).2.blog_dao k = postsAt st.blog_dao k) ∧
        (∀ er, (st.update_blog oid nid n u e).1 = .error er →
          ∀ k, postsAt (st.update_blog oid nid n u e).2.blog_dao k = postsAt st.blog_dao k) ∧
        (oid = nid →
          ∀ k, postsAt (st.update_blog oid nid n u e).2.blog_dao k = postsAt st.blog_dao k) ∧
        (oid ≠ nid → (st.update_blog oid nid n u e).1 = .ok true →
          postsAt (st.update_blog oid nid n u e).2.blog_dao nid = postsAt st.blog_dao oid)) := by
  refine ⟨?_, ?_, ?_⟩
  · intro st cb hl hc halias c now t x k
    refine ⟨?_, ?_, ?_⟩
    · rw [ctrl_create_post_eq st cb hl hc t x now]
      exact putCurrent_preserves st cb
        { cb with post_dao :=
          { posts := cb.post_dao.posts ++ [mkPost (cb.post_dao.counter + 1) t x now]
            counter := cb.post_dao.counter + 1 } } halias rfl rfl k
    · rw [ctrl_update_post_eq st cb hl hc c t x now]
      by_cases hf : (findPost cb.post_dao.posts c).isSome = true
      · rw [if_pos hf]
        exact putCurrent_preserves st cb
          { cb with post_dao :=
            { cb.post_dao with posts := updateFirstPost cb.post_dao.posts c t x now } }
          halias rfl rfl k
      · rw [if_neg hf]
        exact putCurrent_preserves st cb cb halias rfl rfl k
    · rw [ctrl_delete_post_eq st cb hl hc c]
      by_cases hf : (findPost cb.post_dao.posts c).isSome = true
      · rw [if_pos hf]
        exact putCurrent_preserves st cb
          { cb with post_dao :=
            { cb.post_dao with posts := deleteFirstPost cb.post_dao.posts c } }
          halias rfl rfl k
      · rw [if_neg hf]
        exact putCurrent_preserves st cb cb halias rfl rfl k
  · intro st hl i k n u e hk
    have hnl : (!st.logged) = false := by rw [hl]; rfl
    constructor
    · by_cases hex : (dget st.blog_dao i).isSome = true
      · have hres : st.create_blog i n u e = (.error .illegalOperation, st) := by
          simp [Controller.create_blog, BlogDAOJSON.create_blog, hnl, hex]
        rw [hres]
      · have hres : st.create_blog i n u e =
            (.ok (Blog.mk i n u e (PostDAOPickle.mk [] 0)),
              { st with blog_dao := dset st.blog_dao i (Blog.mk i n u e (PostDAOPickle.mk [] 0)) }) := by
          simp [Controller.create_blog, BlogDAOJSON.create_blog, hnl, hex]
        rw [hres]
        show postsAt (dset st.blog_dao i (Blog.mk i n u e (PostDAOPickle.mk [] 0))) k = _
        rw [postsAt, postsAt, dget_dset_ne _ _ _ _ hk]
    · rcases hb : dget st.blog_dao i with _ | blog
      · have hres : st.delete_blog i = (.error .illegalOperation, st) := by
          simp [Controller.delete_blog, BlogDAOJSON.search_blog, hnl, hb]
        rw [hres]
      · by_cases hcur : (match st.current_blog with
            | some cb0 => blogEq blog cb0 | none => false) = true
        · have hres : st.delete_blog i = (.error .illegalOperation, st) := by
            simp [Controller.delete_blog, BlogDAOJSON.search_blog, hnl, hb, hcur]
          rw [hres]
        · have hres : st.delete_blog i =
              (.ok true, { st with blog_dao := ddel st.blog_dao i }) := by
            simp [Controller.delete_blog, BlogDAOJSON.search_blog,
              BlogDAOJSON.delete_blog, hnl, hb, hcur]
          rw [hres]
          show postsAt (ddel st.blog_dao i) k = _
          rw [postsAt, postsAt, dget_ddel_ne _ _ _ hk]
  · intro st hl oid nid n u e
    have hnl : (!st.logged) = false := by rw [hl]; rfl
    rcases hb : dget st.blog_dao oid with _ | blog
    · have hres : st.update_blog oid nid n u e = (.error .illegalOperation, st) := by
        simp [Controller.update_blog, BlogDAOJSON.search_blog, hnl, hb]
      rw [hres]
      exact ⟨fun k _ _ => rfl, fun er _ k => rfl, fun _ k => rfl,
        fun _ hok => by simp at hok⟩
    · by_cases hcur : (match st.current_blog with
          | some cb0 => blogEq blog cb0 | none => false) = true
      · have hres : st.update_blog oid nid n u e = (.error .illegalOperation, st) := by
          simp [Controller.update_blog, BlogDAOJSON.search_blog, hnl, hb, hcur]
        rw [hres]
        exact ⟨fun k _ _ => rfl, fun er _ k => rfl, fun _ k => rfl,
          fun _ hok => by simp at hok⟩
      · have hd1self : dget (dreplace st.blog_dao oid
            { blog with name := n, url := u, email := e }) oid =
            some { blog with name := n, url := u, email := e } := by
          rw [dget_dreplace_self, hb]
          rfl
        have factA : ∀ k, postsAt (dreplace st.blog_dao oid
            { blog with name := n, url := u, email := e }) k =
            postsAt st.blog_dao k := by
          intro k
          by_cases hko : k = oid
          · rw [postsAt, postsAt, hko, dget_dreplace_self, hb]
            rfl
          · rw [postsAt, postsAt, dget_dreplace_ne _ _ _ _ hko]
        by_cases hpq : oid = nid
        · have hbne : (oid != nid) = false := by simp [hpq]
          have hres : st.update_blog oid nid n u e = (.ok true,
              { st with
                blog_dao :=
                  dset (dreplace st.blog_dao oid { blog with name := n, url := u, email := e })
                    oid { blog with name := n, url := u, email := e } }) := by
            simp [Controller.update_blog, BlogDAOJSON.search_blog,
              BlogDAOJSON.update_blog, hnl, hb, hcur, hbne, hd1self]
          have hall : ∀ k, postsAt (st.update_blog oid nid n u e).2.blog_dao k =
              postsAt st.blog_dao k := by
            intro k
            rw [hres]
            show postsAt (dset (dreplace st.blog_dao oid
              { blog with name := n, url := u, email := e }) oid
              { blog with name := n, url := u, email := e }) k = _
            by_cases hko : k = oid
            · rw [hko, postsAt, postsAt, dget_dset_self, hb]
              rfl
            · rw [postsAt, postsAt, dget_dset_ne _ _ _ _ hko,
                dget_dreplace_ne _ _ _ _ hko]
          exact ⟨fun k _ _ => hall k, fun er _ k => hall k, fun _ k => hall k,
            fun hne _ => absurd hpq hne⟩
        · have hbne : (oid != nid) = true := by simpa using hpq
          by_cases hex : (dget (dreplace st.blog_dao oid
              { blog with name := n, url := u, email := e }) nid).isSome = true
          · have hres : st.update_blog oid nid n u e = (.error .illegalOperation,
                { st with
                  blog_dao :=
                    dreplace st.blog_dao oid { blog with name := n, url := u, email := e } }) := by
              simp [Controller.update_blog, BlogDAOJSON.search_blog, hnl, hb, hcur,
                hbne, hex]
            rw [hres]
            exact ⟨fun k _ _ => factA k, fun er _ k => factA k,
              fun h _ => absurd h hpq, fun _ hok => by simp at hok⟩
          · have hexn : dget (dreplace st.blog_dao oid
                { blog with name := n, url := u, email := e }) nid = none := by
              rcases hx : dget (dreplace st.blog_dao oid
                { blog with name := n, url := u, email := e }) nid with _ | v
              · rfl
              · rw [hx] at hex
                simp at hex
            have hafter : dget (ddel (dreplace st.blog_dao oid
                { blog with name := n, url := u, email := e }) oid) nid = none := by
              rw [dget_ddel_ne _ _ _ (fun h => hpq h.symm)]
              exact hexn
            have hres : st.update_blog oid nid n u e = (.ok true,
                { st with
                  blog_dao :=
                    dset
                      (ddel (dreplace st.blog_dao oid { blog with name := n, url := u, email := e }) oid)
                      nid { blog with id := nid, name := n, url := u, email := e } }) := by
              simp [Controller.update_blog, BlogDAOJSON.search_blog,
                BlogDAOJSON.delete_blog, BlogDAOJSON.create_blog, hnl, hb, hcur,
                hbne, hex, hd1self, hafter]
            rw [hres]
            refine ⟨?_, ?_, fun h _ => absurd h hpq, ?_⟩
            · intro k hko hkn
              show postsAt (dset (ddel (dreplace st.blog_dao oid
                { blog with name := n, url := u, email := e }) oid) nid
                { blog with id := nid, name := n, url := u, email := e }) k = _
              rw [postsAt, postsAt, dget_dset_ne _ _ _ _ hkn,
                dget_ddel_ne _ _ _ hko, dget_dreplace_ne _ _ _ _ hko]
            · intro er her k
              simp at her
            · intro _ _
              show postsAt (dset (ddel (dreplace st.blog_dao oid
                { blog with name := n, url := u, email := e }) oid) nid
                { blog with id := nid, name := n, url := u, email := e }) nid = _
              rw [postsAt, postsAt, dget_dset_self, hb]
              rfl

/-- Witness for C6: creating a second blog leaves the post list of the
existing blog (key 1) unchanged. -/
theorem claim_c6_witness :
    postsAt ((Controller.mk [] none none true
        [(1, Blog.mk 1 "a" "u" "e" (PostDAOPickle.mk [Post.mk 1 "t" "x" 0 0] 1))]
        none).create_blog 2 "b" "v" "f").2.blog_dao 1 =
      postsAt [(1, Blog.mk 1 "a" "u" "e" (PostDAOPickle.mk [Post.mk 1 "t" "x" 0 0] 1))] 1 :=
  (claim_c6.2.1
    (Controller.mk [] none none true
      [(1, Blog.mk 1 "a" "u" "e" (PostDAOPickle.mk [Post.mk 1 "t" "x" 0 0] 1))] none)
    rfl 2 1 "b" "v" "f" (by decide)).1

end Blogging
